import Mathlib

/-!
Verification of the team-balancing allocator of the pickup-sports app.

The definitions below are a shallow embedding of the TypeScript source:
- the server-side `generateTeams` method of the storage layer (size planner,
  greedy assigner, repair pass), and
- the client-side `generateBalancedTeams` snake-draft generator.

JavaScript numbers are modelled as rationals (`ℚ`); skills are stored as
`real` columns and all arithmetic on them here is exact.  Player lists are
`List Player`; pushing onto a JS array is appending on the right.  The
unbounded `while` loops of the repair pass are modelled with explicit fuel:
running out of fuel yields `none`, so `some` results are termination
witnesses, and a fuel value that provably suffices bounds the number of
moves the loop performs.
-/

/-- A player record, as consumed by the allocator: an id plus the four
skill ratings (`real` columns in the schema, modelled as `ℚ`). -/
structure Player where
  id : Nat
  offenseSkill : ℚ
  defenseSkill : ℚ
  ballHandlingSkill : ℚ
  overallSkill : ℚ
deriving DecidableEq, Repr

/-- Comparison used by `sort((a, b) => b.overallSkill - a.overallSkill)`:
descending by overall skill, ties keep original order (JS sort is stable). -/
def skillDescLe (a b : Player) : Bool := b.overallSkill ≤ a.overallSkill

/-- Stable descending sort by `overallSkill`, the embedding of
`[...players].sort((a, b) => b.overallSkill - a.overallSkill)`. -/
def sortByOverallDesc (ps : List Player) : List Player :=
  ps.mergeSort skillDescLe

/-- The size plan computed by `generateTeams`: players per team and bench. -/
structure SizePlan where
  playersPerTeam1 : Nat
  playersPerTeam2 : Nat
  benchCount : Nat
deriving DecidableEq, Repr

/-- The size-planner branch of `generateTeams` (part_011 lines 405-458),
a pure function of the total player count.  `Math.ceil(n / 2)` on a natural
count is `(n + 1) / 2` and `Math.floor(n / 2)` is `n / 2`. -/
def sizePlan (totalPlayers : Nat) : SizePlan :=
  if totalPlayers ≤ 10 then
    { playersPerTeam1 := (totalPlayers + 1) / 2
      playersPerTeam2 := totalPlayers - (totalPlayers + 1) / 2
      benchCount := 0 }
  else if totalPlayers ≤ 12 then
    { playersPerTeam1 := (totalPlayers + 1) / 2
      playersPerTeam2 := totalPlayers - (totalPlayers + 1) / 2
      benchCount := 0 }
  else if totalPlayers ≤ 14 then
    -- 13-14 players: 7v7 for exactly 14, otherwise 6v6 plus bench
    if totalPlayers = 14 then
      { playersPerTeam1 := 7, playersPerTeam2 := 7, benchCount := 0 }
    else
      { playersPerTeam1 := 6, playersPerTeam2 := 6
        benchCount := totalPlayers - 12 }
  else if totalPlayers ≤ 17 then
    if totalPlayers % 2 = 0 then
      { playersPerTeam1 := totalPlayers / 2, playersPerTeam2 := totalPlayers / 2
        benchCount := 0 }
    else
      { playersPerTeam1 := totalPlayers / 2
        playersPerTeam2 := (totalPlayers + 1) / 2
        benchCount := 0 }
  else
    -- 18+ players: cap teams at 9, rest on bench
    if totalPlayers ≤ 18 then
      { playersPerTeam1 := totalPlayers / 2
        playersPerTeam2 := (totalPlayers + 1) / 2
        benchCount := 0 }
    else
      { playersPerTeam1 := 9, playersPerTeam2 := 9
        benchCount := totalPlayers - 18 }

/-- `calculateTeamSkill`: sum of `overallSkill` over a team. -/
def calculateTeamSkill (team : List Player) : ℚ :=
  (team.map Player.overallSkill).sum

/-- Offense component of `calculatePositionalSkill`. -/
def teamOffense (team : List Player) : ℚ :=
  (team.map Player.offenseSkill).sum

/-- Defense component of `calculatePositionalSkill`. -/
def teamDefense (team : List Player) : ℚ :=
  (team.map Player.defenseSkill).sum

/-- Ball-handling component of `calculatePositionalSkill`. -/
def teamBallHandling (team : List Player) : ℚ :=
  (team.map Player.ballHandlingSkill).sum

/-- The comprehensive team strength used in the greedy loop:
`skill + offense * 0.8 + defense * 0.8 + ballHandling * 0.6`. -/
def teamStrength (team : List Player) : ℚ :=
  calculateTeamSkill team + teamOffense team * (4 / 5)
    + teamDefense team * (4 / 5) + teamBallHandling team * (3 / 5)

/-- Size-adjusted strength: `strength / Math.max(1, team.length)`. -/
def sizeAdjusted (team : List Player) : ℚ :=
  teamStrength team / max 1 (team.length : ℚ)

/-- One iteration of the greedy assignment loop of `generateTeams`
(part_011 lines 527-582), acting on the pair (whiteTeam, blackTeam):
cap checks first, then the size-difference throttle, then the
weaker-team comparison with ties going to white. -/
def assignPlayer (playersPerTeam1 playersPerTeam2 : Nat)
    (teams : List Player × List Player) (player : Player) :
    List Player × List Player :=
  let whiteTeam := teams.1
  let blackTeam := teams.2
  if playersPerTeam1 ≤ whiteTeam.length then
    (whiteTeam, blackTeam ++ [player])
  else if playersPerTeam2 ≤ blackTeam.length then
    (whiteTeam ++ [player], blackTeam)
  else if 2 ≤ ((whiteTeam.length : Int) - (blackTeam.length : Int)).natAbs then
    if whiteTeam.length < blackTeam.length then
      (whiteTeam ++ [player], blackTeam)
    else
      (whiteTeam, blackTeam ++ [player])
  else if sizeAdjusted whiteTeam ≤ sizeAdjusted blackTeam then
    (whiteTeam ++ [player], blackTeam)
  else
    (whiteTeam, blackTeam ++ [player])

/-- The greedy phase: seed the two highest-rated active players, re-sort the
remainder descending (the source sorts `remainingPlayers` again) and fold the
assignment step over it. -/
def greedyAssign (plan : SizePlan) (p0 p1 : Player)
    (remainingPlayers : List Player) : List Player × List Player :=
  (sortByOverallDesc remainingPlayers).foldl
    (assignPlayer plan.playersPerTeam1 plan.playersPerTeam2) ([p0], [p1])

/-- Remove the member the repair pass moves when it wants the weakest player:
`.map((p, i) => ...).sort((a, b) => a.skill - b.skill)[0].index` followed by
`splice` — the first occurrence of the minimal `overallSkill`. -/
def removeMinSkill : List Player → Option (Player × List Player)
  | [] => none
  | p :: rest =>
    match removeMinSkill rest with
    | none => some (p, [])
    | some (q, rest') =>
      if p.overallSkill ≤ q.overallSkill then some (p, rest)
      else some (q, p :: rest')

/-- Remove the member the repair pass moves when it wants the strongest
player: first occurrence of the maximal `overallSkill`. -/
def removeMaxSkill : List Player → Option (Player × List Player)
  | [] => none
  | p :: rest =>
    match removeMaxSkill rest with
    | none => some (p, [])
    | some (q, rest') =>
      if q.overallSkill ≤ p.overallSkill then some (p, rest)
      else some (q, p :: rest')

/-- Repair loop 1: `while (whiteTeam.length < playersPerTeam1 &&
blackTeam.length > playersPerTeam2)` move the lowest-skill player of black
to white.  Fuel-bounded; `none` means the fuel ran out before the guard
turned false. -/
def moveLowestToWhite :
    Nat → List Player → List Player → Nat → Nat →
    Option (List Player × List Player)
  | 0, _, _, _, _ => none
  | fuel + 1, whiteTeam, blackTeam, cap1, cap2 =>
    if whiteTeam.length < cap1 ∧ cap2 < blackTeam.length then
      match removeMinSkill blackTeam with
      | some (p, rest) => moveLowestToWhite fuel (whiteTeam ++ [p]) rest cap1 cap2
      | none => some (whiteTeam, blackTeam)
    else
      some (whiteTeam, blackTeam)

/-- Repair loop 2: `while (blackTeam.length < playersPerTeam2 &&
whiteTeam.length > playersPerTeam1)` move the lowest-skill player of white
to black. -/
def moveLowestToBlack :
    Nat → List Player → List Player → Nat → Nat →
    Option (List Player × List Player)
  | 0, _, _, _, _ => none
  | fuel + 1, whiteTeam, blackTeam, cap1, cap2 =>
    if blackTeam.length < cap2 ∧ cap1 < whiteTeam.length then
      match removeMinSkill whiteTeam with
      | some (p, rest) => moveLowestToBlack fuel rest (blackTeam ++ [p]) cap1 cap2
      | none => some (whiteTeam, blackTeam)
    else
      some (whiteTeam, blackTeam)

/-- Repair loop 3: `while (whiteTeam.length > playersPerTeam1)` move the
highest-skill player of white to black. -/
def moveHighestToBlack :
    Nat → List Player → List Player → Nat →
    Option (List Player × List Player)
  | 0, _, _, _ => none
  | fuel + 1, whiteTeam, blackTeam, cap1 =>
    if cap1 < whiteTeam.length then
      match removeMaxSkill whiteTeam with
      | some (p, rest) => moveHighestToBlack fuel rest (blackTeam ++ [p]) cap1
      | none => some (whiteTeam, blackTeam)
    else
      some (whiteTeam, blackTeam)

/-- Repair loop 4: `while (blackTeam.length > playersPerTeam2)` move the
highest-skill player of black to white. -/
def moveHighestToWhite :
    Nat → List Player → List Player → Nat →
    Option (List Player × List Player)
  | 0, _, _, _ => none
  | fuel + 1, whiteTeam, blackTeam, cap2 =>
    if cap2 < blackTeam.length then
      match removeMaxSkill blackTeam with
      | some (p, rest) => moveHighestToWhite fuel (whiteTeam ++ [p]) rest cap2
      | none => some (whiteTeam, blackTeam)
    else
      some (whiteTeam, blackTeam)

/-- The whole repair pass (part_011 lines 584-636): the four fuel-bounded
loops in source order.  The outer `if` guards of the source are subsumed by
the loop guards. -/
def adjustTeams (fuel : Nat) (whiteTeam blackTeam : List Player)
    (cap1 cap2 : Nat) : Option (List Player × List Player) := do
  let s1 ← moveLowestToWhite fuel whiteTeam blackTeam cap1 cap2
  let s2 ← moveLowestToBlack fuel s1.1 s1.2 cap1 cap2
  let s3 ← moveHighestToBlack fuel s2.1 s2.2 cap1
  let s4 ← moveHighestToWhite fuel s3.1 s3.2 cap2
  pure s4

/-- The allocator's output: the two teams and the bench. -/
structure TeamAssignment where
  whiteTeam : List Player
  blackTeam : List Player
  benchPlayers : List Player
deriving DecidableEq, Repr

/-- Total number of active (non-bench) players for a roster of size `n`. -/
def totalActiveCount (n : Nat) : Nat :=
  (sizePlan n).playersPerTeam1 + (sizePlan n).playersPerTeam2

/-- The core allocation of `generateTeams` after the registration guard:
sort descending, split active pool and bench by the size plan, seed the top
two active players, run the greedy fold and then the repair pass.

The source reads `actualActivePlayers[0]` and `[1]` unconditionally; with
fewer than two players those reads yield `undefined`, so that case is
modelled as `none`.  The repair fuel `n + 1` is enough for the guard of each
loop to be re-checked once per possible move plus once to exit, so a `some`
result certifies termination of every loop within `n + 1` guard checks. -/
def allocateTeams (goingPlayers : List Player) : Option TeamAssignment :=
  let sortedPlayers := sortByOverallDesc goingPlayers
  let totalPlayers := goingPlayers.length
  let plan := sizePlan totalPlayers
  let activePlayers := sortedPlayers.take (totalActiveCount totalPlayers)
  let benchPlayers := sortedPlayers.drop (totalActiveCount totalPlayers)
  let actualActivePlayers :=
    activePlayers.take (plan.playersPerTeam1 + plan.playersPerTeam2)
  match actualActivePlayers with
  | p0 :: p1 :: remainingPlayers =>
    let teams := greedyAssign plan p0 p1 remainingPlayers
    match adjustTeams (totalPlayers + 1) teams.1 teams.2
        plan.playersPerTeam1 plan.playersPerTeam2 with
    | some adjusted =>
      some { whiteTeam := adjusted.1, blackTeam := adjusted.2
             benchPlayers := benchPlayers }
    | none => none
  | _ => none

/-- Outcome of the server-side `generateTeams` call: either an exception is
raised (`throw new Error(msg)`) or a team assignment is produced. -/
inductive GenOutcome where
  | raises (msg : String)
  | ok (assignment : TeamAssignment)
deriving DecidableEq, Repr

/-- Whether a `GenOutcome` carries a team assignment. -/
def GenOutcome.isOk : GenOutcome → Bool
  | .raises _ => false
  | .ok _ => true

/-- The server-side `generateTeams` (part_011 lines 360-674), with the
storage I/O stripped: the `< 8` registration guard throws, otherwise the
core allocation runs.  After the guard at least 8 players are present, so
the `none` branch of `allocateTeams` is dead code. -/
def generateTeams (goingPlayers : List Player) : GenOutcome :=
  if goingPlayers.length < 8 then
    .raises "At least 8 players need to be registered to generate teams"
  else
    match allocateTeams goingPlayers with
    | some t => .ok t
    | none => .raises "unreachable: fewer than 2 active players"

/-- One step of the client snake draft (`team-generator.ts` lines 27-38),
folding over the sorted players with the running team skills and index. -/
def draftStep (st : List Player × List Player × ℚ × ℚ × Nat) (player : Player) :
    List Player × List Player × ℚ × ℚ × Nat :=
  let (whiteTeam, blackTeam, whiteSkill, blackSkill, index) := st
  if (whiteSkill ≤ blackSkill ∧ index % 2 = 0)
      ∨ (whiteSkill < blackSkill ∧ index % 2 = 1) then
    (whiteTeam ++ [player], blackTeam,
      whiteSkill + player.overallSkill, blackSkill, index + 1)
  else
    (whiteTeam, blackTeam ++ [player],
      whiteSkill, blackSkill + player.overallSkill, index + 1)

/-- Replace the first occurrence of `a` in `l` by `b`
(`splice(indexOf(a), 1, b)`; in the source `a` is always present because it
was obtained by `find`). -/
def replaceFirst (l : List Player) (a b : Player) : List Player :=
  match l with
  | [] => []
  | x :: xs => if x = a then b :: xs else x :: replaceFirst xs a b

/-- The mid-range swap scan of the client generator (`team-generator.ts`
lines 41-62): walk the index window, and at the first improving white/black
pair swap them and stop (`break`); otherwise fall through unchanged. -/
def trySwap (sortedPlayers whiteTeam blackTeam : List Player)
    (whiteSkill blackSkill : ℚ) : List Nat → List Player × List Player
  | [] => (whiteTeam, blackTeam)
  | i :: rest =>
    let wp := match sortedPlayers[i]? with
      | some sp => whiteTeam.find? (fun p : Player => p.id == sp.id)
      | none => none
    let bp := match sortedPlayers[i + 1]? with
      | some sp => blackTeam.find? (fun p : Player => p.id == sp.id)
      | none => none
    match wp, bp with
    | some whitePlayer, some blackPlayer =>
      let newWhiteSkill := whiteSkill - whitePlayer.overallSkill + blackPlayer.overallSkill
      let newBlackSkill := blackSkill - blackPlayer.overallSkill + whitePlayer.overallSkill
      if |newWhiteSkill - newBlackSkill| < |whiteSkill - blackSkill| then
        (replaceFirst whiteTeam whitePlayer blackPlayer,
          replaceFirst blackTeam blackPlayer whitePlayer)
      else
        trySwap sortedPlayers whiteTeam blackTeam whiteSkill blackSkill rest
    | _, _ => trySwap sortedPlayers whiteTeam blackTeam whiteSkill blackSkill rest

/-- The client-side `generateBalancedTeams` (`team-generator.ts` lines
10-64).  A JS `null`/`undefined` argument is modelled as `none`; the guard
`!players || players.length < 2` returns two empty teams.  Otherwise the
snake draft runs, followed for odd rosters with skill gap above 1 by the
mid-range swap scan over `[floor(n/3), 2*floor(n/3))`. -/
def generateBalancedTeams (playersInput : Option (List Player)) :
    List Player × List Player :=
  match playersInput with
  | none => ([], [])
  | some players =>
    if players.length < 2 then ([], [])
    else
      let sortedPlayers := sortByOverallDesc players
      let result := sortedPlayers.foldl draftStep ([], [], 0, 0, 0)
      let whiteTeam := result.1
      let blackTeam := result.2.1
      let whiteSkill := result.2.2.1
      let blackSkill := result.2.2.2.1
      if sortedPlayers.length % 2 = 1 ∧ 1 < |whiteSkill - blackSkill| then
        trySwap sortedPlayers whiteTeam blackTeam whiteSkill blackSkill
          (List.range' (sortedPlayers.length / 3) (sortedPlayers.length / 3))
      else
        (whiteTeam, blackTeam)

/-! ## Helper lemmas -/

theorem sizePlan_sum (n : Nat) (h : 2 ≤ n) :
    (sizePlan n).playersPerTeam1 + (sizePlan n).playersPerTeam2
      + (sizePlan n).benchCount = n := by
  unfold sizePlan
  repeat' split
  all_goals dsimp only
  all_goals omega

theorem sizePlan_caps (n : Nat) (h : 2 ≤ n) :
    1 ≤ (sizePlan n).playersPerTeam1 ∧ 1 ≤ (sizePlan n).playersPerTeam2 ∧
      (sizePlan n).playersPerTeam1 + (sizePlan n).playersPerTeam2 ≤ n := by
  unfold sizePlan
  repeat' split
  all_goals dsimp only
  all_goals omega

theorem assignPlayer_shape (cap1 cap2 : Nat) (st : List Player × List Player)
    (p : Player) :
    assignPlayer cap1 cap2 st p = (st.1 ++ [p], st.2) ∨
      assignPlayer cap1 cap2 st p = (st.1, st.2 ++ [p]) := by
  unfold assignPlayer
  by_cases h1 : cap1 ≤ st.1.length
  · simp [h1]
  by_cases h2 : cap2 ≤ st.2.length
  · simp [h1, h2]
  by_cases h3 : 2 ≤ ((st.1.length : Int) - (st.2.length : Int)).natAbs
  · by_cases h4 : st.1.length < st.2.length
    · simp [h1, h2, h3, h4]
    · simp [h1, h2, h3, h4]
  by_cases h5 : sizeAdjusted st.1 ≤ sizeAdjusted st.2
  · simp [h1, h2, h3, h5]
  · simp [h1, h2, h3, h5]

theorem assignPlayer_white_full (cap1 cap2 : Nat)
    (st : List Player × List Player) (p : Player)
    (h : cap1 ≤ st.1.length) :
    assignPlayer cap1 cap2 st p = (st.1, st.2 ++ [p]) := by
  unfold assignPlayer
  simp [h]

theorem assignPlayer_black_full (cap1 cap2 : Nat)
    (st : List Player × List Player) (p : Player)
    (h1 : st.1.length < cap1) (h2 : cap2 ≤ st.2.length) :
    assignPlayer cap1 cap2 st p = (st.1 ++ [p], st.2) := by
  unfold assignPlayer
  simp [Nat.not_le.mpr h1, h2]

theorem assignPlayer_caps (cap1 cap2 : Nat) (st : List Player × List Player)
    (p : Player) (hw : st.1.length ≤ cap1) (hb : st.2.length ≤ cap2)
    (hsum : st.1.length + st.2.length < cap1 + cap2) :
    (assignPlayer cap1 cap2 st p).1.length ≤ cap1 ∧
      (assignPlayer cap1 cap2 st p).2.length ≤ cap2 ∧
      (assignPlayer cap1 cap2 st p).1.length
        + (assignPlayer cap1 cap2 st p).2.length
        = st.1.length + st.2.length + 1 := by
  by_cases h1 : cap1 ≤ st.1.length
  · rw [assignPlayer_white_full cap1 cap2 st p h1]
    simp only [List.length_append, List.length_singleton]
    omega
  by_cases h2 : cap2 ≤ st.2.length
  · rw [assignPlayer_black_full cap1 cap2 st p (Nat.not_le.mp h1) h2]
    simp only [List.length_append, List.length_singleton]
    omega
  rcases assignPlayer_shape cap1 cap2 st p with h | h <;>
    · rw [h]
      simp only [List.length_append, List.length_singleton]
      omega

theorem greedyFold_lengths (cap1 cap2 : Nat) :
    ∀ (l : List Player) (st : List Player × List Player),
      st.1.length ≤ cap1 → st.2.length ≤ cap2 →
      st.1.length + st.2.length + l.length ≤ cap1 + cap2 →
      (l.foldl (assignPlayer cap1 cap2) st).1.length ≤ cap1 ∧
        (l.foldl (assignPlayer cap1 cap2) st).2.length ≤ cap2 ∧
        (l.foldl (assignPlayer cap1 cap2) st).1.length
          + (l.foldl (assignPlayer cap1 cap2) st).2.length
          = st.1.length + st.2.length + l.length
  | [], st, hw, hb, _ => by simp [hw, hb]
  | p :: l, st, hw, hb, hsum => by
    simp only [List.foldl_cons, List.length_cons]
    have hlt : st.1.length + st.2.length < cap1 + cap2 := by
      simp only [List.length_cons] at hsum; omega
    obtain ⟨h1, h2, h3⟩ := assignPlayer_caps cap1 cap2 st p hw hb hlt
    have ih := greedyFold_lengths cap1 cap2 l (assignPlayer cap1 cap2 st p)
      h1 h2 (by simp only [List.length_cons] at hsum; omega)
    omega

theorem snoc_left_perm (w b l : List Player) (p : Player) :
    ((w ++ [p]) ++ b ++ l).Perm (w ++ b ++ (p :: l)) := by
  have h1 : (w ++ [p]) ++ b ++ l = w ++ (p :: (b ++ l)) := by
    simp [List.append_assoc]
  have h2 : w ++ b ++ (p :: l) = w ++ (b ++ (p :: l)) := by
    simp [List.append_assoc]
  rw [h1, h2]
  exact List.Perm.append_left w List.perm_middle.symm

theorem greedyFold_perm (cap1 cap2 : Nat) :
    ∀ (l : List Player) (st : List Player × List Player),
      ((l.foldl (assignPlayer cap1 cap2) st).1
        ++ (l.foldl (assignPlayer cap1 cap2) st).2).Perm (st.1 ++ st.2 ++ l)
  | [], st => by simp
  | p :: l, st => by
    simp only [List.foldl_cons]
    have ih := greedyFold_perm cap1 cap2 l (assignPlayer cap1 cap2 st p)
    refine ih.trans ?_
    rcases assignPlayer_shape cap1 cap2 st p with h | h <;> rw [h]
    · exact snoc_left_perm st.1 st.2 l p
    · have : st.1 ++ (st.2 ++ [p]) ++ l = st.1 ++ st.2 ++ (p :: l) := by
        simp [List.append_assoc]
      rw [this]

theorem moveLowestToWhite_noop (fuel : Nat) (w b : List Player)
    (cap1 cap2 : Nat) (h : ¬(w.length < cap1 ∧ cap2 < b.length)) :
    moveLowestToWhite (fuel + 1) w b cap1 cap2 = some (w, b) := by
  unfold moveLowestToWhite
  simp [h]

theorem moveLowestToBlack_noop (fuel : Nat) (w b : List Player)
    (cap1 cap2 : Nat) (h : ¬(b.length < cap2 ∧ cap1 < w.length)) :
    moveLowestToBlack (fuel + 1) w b cap1 cap2 = some (w, b) := by
  unfold moveLowestToBlack
  simp [h]

theorem moveHighestToBlack_noop (fuel : Nat) (w b : List Player)
    (cap1 : Nat) (h : ¬(cap1 < w.length)) :
    moveHighestToBlack (fuel + 1) w b cap1 = some (w, b) := by
  unfold moveHighestToBlack
  simp [h]

theorem moveHighestToWhite_noop (fuel : Nat) (w b : List Player)
    (cap2 : Nat) (h : ¬(cap2 < b.length)) :
    moveHighestToWhite (fuel + 1) w b cap2 = some (w, b) := by
  unfold moveHighestToWhite
  simp [h]

theorem adjustTeams_noop (fuel : Nat) (w b : List Player) (cap1 cap2 : Nat)
    (hw : w.length = cap1) (hb : b.length = cap2) :
    adjustTeams (fuel + 1) w b cap1 cap2 = some (w, b) := by
  have h1 := moveLowestToWhite_noop fuel w b cap1 cap2 (by omega)
  have h2 := moveLowestToBlack_noop fuel w b cap1 cap2 (by omega)
  have h3 := moveHighestToBlack_noop fuel w b cap1 (by omega)
  have h4 := moveHighestToWhite_noop fuel w b cap2 (by omega)
  simp [adjustTeams, h1, h2, h3, h4]

theorem sortByOverallDesc_perm (ps : List Player) :
    (sortByOverallDesc ps).Perm ps :=
  List.mergeSort_perm ps skillDescLe

theorem sortByOverallDesc_length (ps : List Player) :
    (sortByOverallDesc ps).length = ps.length := by
  simp [sortByOverallDesc]

theorem sortByOverallDesc_pairwise (ps : List Player) :
    (sortByOverallDesc ps).Pairwise
      (fun a b => b.overallSkill ≤ a.overallSkill) := by
  have htrans : ∀ a b c : Player, skillDescLe a b → skillDescLe b c →
      skillDescLe a c := by
    intro a b c hab hbc
    simp only [skillDescLe, decide_eq_true_eq] at *
    exact le_trans hbc hab
  have htotal : ∀ a b : Player, skillDescLe a b || skillDescLe b a := by
    intro a b
    simp only [skillDescLe, Bool.or_eq_true, decide_eq_true_eq]
    exact le_total _ _
  have h := List.sorted_mergeSort htrans htotal ps
  refine h.imp ?_
  intro a b hab
  simpa [skillDescLe, decide_eq_true_eq] using hab

theorem takeActive_eq_cons (ps : List Player) (h2 : 2 ≤ ps.length) :
    ∃ p0 p1 rest, (sortByOverallDesc ps).take (totalActiveCount ps.length)
      = p0 :: p1 :: rest := by
  obtain ⟨hc1, hc2, hk⟩ := sizePlan_caps ps.length h2
  have hslen := sortByOverallDesc_length ps
  have htlen : ((sortByOverallDesc ps).take (totalActiveCount ps.length)).length
      = totalActiveCount ps.length := by
    simp [hslen]; unfold totalActiveCount; omega
  have hkk : 2 ≤ totalActiveCount ps.length := by
    unfold totalActiveCount; omega
  rcases e : (sortByOverallDesc ps).take (totalActiveCount ps.length)
    with _ | ⟨q0, l⟩
  · rw [e] at htlen; simp at htlen; omega
  rcases l with _ | ⟨q1, rest⟩
  · rw [e] at htlen; simp at htlen; omega
  exact ⟨q0, q1, rest, rfl⟩

theorem allocateTeams_of_take (ps : List Player) (p0 p1 : Player)
    (rest : List Player) (h2 : 2 ≤ ps.length)
    (htake : (sortByOverallDesc ps).take (totalActiveCount ps.length)
      = p0 :: p1 :: rest) :
    (greedyAssign (sizePlan ps.length) p0 p1 rest).1.length
        = (sizePlan ps.length).playersPerTeam1 ∧
      (greedyAssign (sizePlan ps.length) p0 p1 rest).2.length
        = (sizePlan ps.length).playersPerTeam2 ∧
      adjustTeams (ps.length + 1)
          (greedyAssign (sizePlan ps.length) p0 p1 rest).1
          (greedyAssign (sizePlan ps.length) p0 p1 rest).2
          (sizePlan ps.length).playersPerTeam1
          (sizePlan ps.length).playersPerTeam2
        = some (greedyAssign (sizePlan ps.length) p0 p1 rest) ∧
      allocateTeams ps = some
        { whiteTeam := (greedyAssign (sizePlan ps.length) p0 p1 rest).1
          blackTeam := (greedyAssign (sizePlan ps.length) p0 p1 rest).2
          benchPlayers :=
            (sortByOverallDesc ps).drop (totalActiveCount ps.length) } ∧
      ((greedyAssign (sizePlan ps.length) p0 p1 rest).1
        ++ (greedyAssign (sizePlan ps.length) p0 p1 rest).2).Perm
        ((sortByOverallDesc ps).take (totalActiveCount ps.length)) := by
  obtain ⟨hc1, hc2, hk⟩ := sizePlan_caps ps.length h2
  have hslen := sortByOverallDesc_length ps
  have htlen : ((sortByOverallDesc ps).take (totalActiveCount ps.length)).length
      = totalActiveCount ps.length := by
    simp [hslen]; unfold totalActiveCount; omega
  have hrest : rest.length = totalActiveCount ps.length - 2 := by
    rw [htake] at htlen; simp at htlen; omega
  obtain ⟨hf1, hf2, hf3⟩ := greedyFold_lengths
    (sizePlan ps.length).playersPerTeam1 (sizePlan ps.length).playersPerTeam2
    (sortByOverallDesc rest) ([p0], [p1])
    (by simpa using hc1) (by simpa using hc2)
    (by
      simp only [sortByOverallDesc_length]
      unfold totalActiveCount at hrest
      simp only [List.length_singleton]
      omega)
  have hgdef : greedyAssign (sizePlan ps.length) p0 p1 rest
      = (sortByOverallDesc rest).foldl
          (assignPlayer (sizePlan ps.length).playersPerTeam1
            (sizePlan ps.length).playersPerTeam2) ([p0], [p1]) := rfl
  rw [← hgdef] at hf1 hf2 hf3
  have hw1 : (greedyAssign (sizePlan ps.length) p0 p1 rest).1.length
      = (sizePlan ps.length).playersPerTeam1 := by
    simp only [sortByOverallDesc_length] at hf3
    unfold totalActiveCount at hrest
    simp only [List.length_singleton] at hf3
    omega
  have hw2 : (greedyAssign (sizePlan ps.length) p0 p1 rest).2.length
      = (sizePlan ps.length).playersPerTeam2 := by
    simp only [sortByOverallDesc_length] at hf3
    unfold totalActiveCount at hrest
    simp only [List.length_singleton] at hf3
    omega
  have hadj := adjustTeams_noop ps.length
    (greedyAssign (sizePlan ps.length) p0 p1 rest).1
    (greedyAssign (sizePlan ps.length) p0 p1 rest).2
    (sizePlan ps.length).playersPerTeam1 (sizePlan ps.length).playersPerTeam2
    hw1 hw2
  refine ⟨hw1, hw2, ?_, ?_, ?_⟩
  · rw [hadj]
  · unfold allocateTeams
    dsimp only
    unfold totalActiveCount at htake ⊢
    rw [List.take_take, Nat.min_self, htake]
    dsimp only
    unfold totalActiveCount at hadj
    rw [hadj]
  · have hperm := greedyFold_perm
      (sizePlan ps.length).playersPerTeam1 (sizePlan ps.length).playersPerTeam2
      (sortByOverallDesc rest) ([p0], [p1])
    rw [← hgdef] at hperm
    refine hperm.trans ?_
    rw [htake]
    have : ([p0] ++ [p1]) ++ sortByOverallDesc rest
        = p0 :: p1 :: sortByOverallDesc rest := by simp
    rw [this]
    exact ((sortByOverallDesc_perm rest).cons p1).cons p0

theorem allocateTeams_full (ps : List Player) (h2 : 2 ≤ ps.length) :
    ∃ t : TeamAssignment, allocateTeams ps = some t ∧
      t.whiteTeam.length = (sizePlan ps.length).playersPerTeam1 ∧
      t.blackTeam.length = (sizePlan ps.length).playersPerTeam2 ∧
      t.benchPlayers = (sortByOverallDesc ps).drop (totalActiveCount ps.length) ∧
      (t.whiteTeam ++ t.blackTeam).Perm
        ((sortByOverallDesc ps).take (totalActiveCount ps.length)) ∧
      (t.whiteTeam ++ t.blackTeam ++ t.benchPlayers).Perm ps := by
  obtain ⟨p0, p1, rest, htake⟩ := takeActive_eq_cons ps h2
  obtain ⟨hw1, hw2, _, halloc, hperm⟩ :=
    allocateTeams_of_take ps p0 p1 rest h2 htake
  refine ⟨_, halloc, hw1, hw2, rfl, hperm, ?_⟩
  have hall := hperm.append_right
    ((sortByOverallDesc ps).drop (totalActiveCount ps.length))
  refine hall.trans ?_
  rw [List.take_append_drop]
  exact sortByOverallDesc_perm ps

/-! ## Spec-side definitions, written from the claims' wording -/

/-- The Size Planner table exactly as the spec's claim words it:
ceil/floor halves up to 12, then 6/6/1 at 13, 7/7/0 at 14, floor/ceil
from 15 to 17, and min-9-capped teams with the rest benched from 18 up. -/
def plannerSpecTable (n : Nat) : SizePlan :=
  if n ≤ 12 then
    { playersPerTeam1 := (n + 1) / 2, playersPerTeam2 := n / 2, benchCount := 0 }
  else if n = 13 then
    { playersPerTeam1 := 6, playersPerTeam2 := 6, benchCount := 1 }
  else if n = 14 then
    { playersPerTeam1 := 7, playersPerTeam2 := 7, benchCount := 0 }
  else if n ≤ 17 then
    { playersPerTeam1 := n / 2, playersPerTeam2 := (n + 1) / 2, benchCount := 0 }
  else
    { playersPerTeam1 := min 9 (n / 2), playersPerTeam2 := min 9 ((n + 1) / 2)
      benchCount := n - (min 9 (n / 2) + min 9 ((n + 1) / 2)) }

/-- Composite team strength as the spec's claim words it: sum of overall
skill plus 0.8 times summed offense plus 0.8 times summed defense plus 0.6
times summed ball handling. -/
def specCompositeStrength (team : List Player) : ℚ :=
  (team.map Player.overallSkill).sum
    + (4 / 5) * (team.map Player.offenseSkill).sum
    + (4 / 5) * (team.map Player.defenseSkill).sum
    + (3 / 5) * (team.map Player.ballHandlingSkill).sum

/-- Size-normalized strength as the spec's claim words it: composite
strength divided by max(1, team size). -/
def specNormalizedStrength (team : List Player) : ℚ :=
  specCompositeStrength team / max 1 (team.length : ℚ)

/-- The per-player greedy assignment rule as the spec's claim words it:
force to the other team at a cap, smaller team when the size gap is at
least 2, otherwise the team of lower size-normalized strength with ties
going to teamA (white). -/
def specAssignRule (cap1 cap2 : Nat) (st : List Player × List Player)
    (p : Player) : List Player × List Player :=
  if cap1 ≤ st.1.length then (st.1, st.2 ++ [p])
  else if cap2 ≤ st.2.length then (st.1 ++ [p], st.2)
  else if 2 ≤ ((st.1.length : Int) - (st.2.length : Int)).natAbs then
    if st.1.length < st.2.length then (st.1 ++ [p], st.2)
    else (st.1, st.2 ++ [p])
  else if specNormalizedStrength st.1 ≤ specNormalizedStrength st.2 then
    (st.1 ++ [p], st.2)
  else (st.1, st.2 ++ [p])

/-! ## Sample data for concrete witnesses -/

/-- A player whose four skills all equal `s`. -/
def samplePlayer (i : Nat) (s : ℚ) : Player :=
  { id := i, offenseSkill := s, defenseSkill := s
    ballHandlingSkill := s, overallSkill := s }

/-- A two-player roster with skills 10 and 1, already sorted descending. -/
def sampleTwo : List Player := [samplePlayer 1 10, samplePlayer 2 1]

/-- An eight-player roster. -/
def sampleEight : List Player :=
  [samplePlayer 1 9, samplePlayer 2 8, samplePlayer 3 7, samplePlayer 4 6,
   samplePlayer 5 5, samplePlayer 6 4, samplePlayer 7 3, samplePlayer 8 2]

/-- The thirteen-player roster of the spec's scenario example 2. -/
def sampleThirteen : List Player :=
  [samplePlayer 1 9, samplePlayer 2 8, samplePlayer 3 7, samplePlayer 4 6,
   samplePlayer 5 6, samplePlayer 6 5, samplePlayer 7 5, samplePlayer 8 4,
   samplePlayer 9 4, samplePlayer 10 3, samplePlayer 11 3, samplePlayer 12 2,
   samplePlayer 13 1]

/-! ## Claim theorems -/

/-- On every totalCount from 2 to 30 the code's size planner equals the
spec's Size Planner table (checked by exhaustive evaluation). -/
theorem sizePlan_eq_table (n : Nat) (h2 : 2 ≤ n) (h30 : n ≤ 30) :
    sizePlan n = plannerSpecTable n := by
  have h : ∀ m ∈ Finset.Icc 2 30, sizePlan m = plannerSpecTable m := by decide
  exact h n (Finset.mem_Icc.mpr ⟨h2, h30⟩)

/-- C2: Size conformance — for every roster of 2 to 30 players the
allocator's output team and bench sizes equal the spec's Size Planner
table exactly (hence including the boundary counts 10, 11, 12, 13, 14, 15,
17 and 18), and the three output sizes sum to the roster size. -/
theorem size_conformance (ps : List Player) (h2 : 2 ≤ ps.length)
    (h30 : ps.length ≤ 30) :
    ∃ t : TeamAssignment, allocateTeams ps = some t ∧
      t.whiteTeam.length = (plannerSpecTable ps.length).playersPerTeam1 ∧
      t.blackTeam.length = (plannerSpecTable ps.length).playersPerTeam2 ∧
      t.benchPlayers.length = (plannerSpecTable ps.length).benchCount ∧
      t.whiteTeam.length + t.blackTeam.length + t.benchPlayers.length
        = ps.length := by
  obtain ⟨t, halloc, hw1, hw2, hbench, -, -⟩ := allocateTeams_full ps h2
  have hblen : t.benchPlayers.length = (sizePlan ps.length).benchCount := by
    rw [hbench]
    have hsum := sizePlan_sum ps.length h2
    simp only [List.length_drop, sortByOverallDesc_length]
    unfold totalActiveCount
    omega
  have htable := sizePlan_eq_table ps.length h2 h30
  have hsum := sizePlan_sum ps.length h2
  refine ⟨t, halloc, ?_, ?_, ?_, ?_⟩
  · rw [hw1, htable]
  · rw [hw2, htable]
  · rw [hblen, htable]
  · rw [hw1, hw2, hblen]
    exact hsum

/-- Witness for C2 at the boundary roster size 13 (plan 6/6/1). -/
theorem size_conformance_witness :
    ∃ t : TeamAssignment, allocateTeams sampleThirteen = some t ∧
      t.whiteTeam.length
        = (plannerSpecTable sampleThirteen.length).playersPerTeam1 ∧
      t.blackTeam.length
        = (plannerSpecTable sampleThirteen.length).playersPerTeam2 ∧
      t.benchPlayers.length
        = (plannerSpecTable sampleThirteen.length).benchCount ∧
      t.whiteTeam.length + t.blackTeam.length + t.benchPlayers.length
        = sampleThirteen.length :=
  size_conformance sampleThirteen (by decide) (by decide)

/-- C3 counterexample: a two-player roster makes the server allocator raise
the registration error, so an input of 2 or more players can produce an
error, and the error is an exception, not a typed InsufficientPlayersError
result. -/
theorem insufficient_players_cex :
    generateTeams sampleTwo
        = GenOutcome.raises
            "At least 8 players need to be registered to generate teams" ∧
      (generateTeams sampleTwo).isOk = false := by
  constructor <;> rfl

/-- C3 (amended): the server allocator raises an exception (the message
"At least 8 players need to be registered to generate teams") for every
input of fewer than 8 players — including 0 and 1 — and produces no
TeamAssignment; for every input of 8 or more players no error is produced
and a TeamAssignment is returned.  No typed InsufficientPlayersError value
exists. -/
theorem generateTeams_error_behavior (ps : List Player) :
    (ps.length < 8 →
      generateTeams ps
        = GenOutcome.raises
            "At least 8 players need to be registered to generate teams") ∧
      (8 ≤ ps.length → ∃ t, generateTeams ps = GenOutcome.ok t) := by
  constructor
  · intro h
    unfold generateTeams
    simp [h]
  · intro h
    obtain ⟨t, halloc, -, -, -, -, -⟩ := allocateTeams_full ps (by omega)
    refine ⟨t, ?_⟩
    unfold generateTeams
    simp [Nat.not_lt.mpr h, halloc]

/-- Witness for C3 (amended) at a 2-player and an 8-player roster. -/
theorem generateTeams_error_behavior_witness :
    generateTeams sampleTwo
        = GenOutcome.raises
            "At least 8 players need to be registered to generate teams" ∧
      ∃ t, generateTeams sampleEight = GenOutcome.ok t :=
  ⟨(generateTeams_error_behavior sampleTwo).1 (by decide),
    (generateTeams_error_behavior sampleEight).2 (by decide)⟩

/-- The source's size-adjusted strength equals the spec's size-normalized
strength (the two spell the same weighted sum in different orders). -/
theorem sizeAdjusted_eq_spec (team : List Player) :
    sizeAdjusted team = specNormalizedStrength team := by
  unfold sizeAdjusted specNormalizedStrength teamStrength specCompositeStrength
    calculateTeamSkill teamOffense teamDefense teamBallHandling
  congr 1
  ring

/-- C4: Greedy assignment rule — the greedy phase is exactly the fold, over
the remaining players in descending overall-skill order after seeding the
two strongest to white and black, of the spec's rule: force to the other
team at a cap, else smaller team when the size gap is ≥ 2, else the team
with lower size-normalized composite strength, ties to teamA. -/
theorem greedy_assignment_rule (plan : SizePlan) (p0 p1 : Player)
    (rest : List Player) :
    greedyAssign plan p0 p1 rest
      = (sortByOverallDesc rest).foldl
          (specAssignRule plan.playersPerTeam1 plan.playersPerTeam2)
          ([p0], [p1]) := by
  have hstep : assignPlayer plan.playersPerTeam1 plan.playersPerTeam2
      = specAssignRule plan.playersPerTeam1 plan.playersPerTeam2 := by
    funext st p
    unfold assignPlayer specAssignRule
    dsimp only
    rw [sizeAdjusted_eq_spec, sizeAdjusted_eq_spec]
  unfold greedyAssign
  rw [hstep]

/-- C8: Determinism — two calls of the allocators on equal inputs return
identical results (the embedding is a pure function; the source contains no
randomness). -/
theorem allocator_determinism (ps qs : List Player) (h : ps = qs) :
    allocateTeams ps = allocateTeams qs ∧
      generateTeams ps = generateTeams qs ∧
      generateBalancedTeams (some ps) = generateBalancedTeams (some qs) := by
  subst h
  exact ⟨rfl, rfl, rfl⟩

/-- Witness for C8 on the concrete two-player roster. -/
theorem allocator_determinism_witness :
    allocateTeams sampleTwo = allocateTeams sampleTwo ∧
      generateTeams sampleTwo = generateTeams sampleTwo ∧
      generateBalancedTeams (some sampleTwo)
        = generateBalancedTeams (some sampleTwo) :=
  allocator_determinism sampleTwo sampleTwo rfl

/-- C10: Client-side degenerate input — a null/undefined player list or a
list of fewer than 2 players makes `generateBalancedTeams` return two empty
teams, with no error value and no exception. -/
theorem client_degenerate (ps : List Player) (h : ps.length < 2) :
    generateBalancedTeams none = ([], []) ∧
      generateBalancedTeams (some ps) = ([], []) := by
  refine ⟨rfl, ?_⟩
  unfold generateBalancedTeams
  simp [h]

/-- Witness for C10 on a one-player list. -/
theorem client_degenerate_witness :
    generateBalancedTeams none = ([], []) ∧
      generateBalancedTeams (some [samplePlayer 1 5]) = ([], []) :=
  client_degenerate [samplePlayer 1 5] (by decide)

/-- When the plan allocates no bench, its two team sizes differ by at most
one. -/
theorem sizePlan_diff (n : Nat) (h2 : 2 ≤ n) :
    (sizePlan n).benchCount = 0 →
    (((sizePlan n).playersPerTeam1 : Int)
      - ((sizePlan n).playersPerTeam2 : Int)).natAbs ≤ 1 := by
  unfold sizePlan
  repeat' split
  all_goals dsimp only
  all_goals intro hb
  all_goals omega

/-- C1: Partition completeness — for every roster of distinct players of
size 2 to 30 the allocator succeeds and teamA ∪ teamB ∪ bench is exactly
the input set: a permutation of the input with no duplicates. -/
theorem partition_completeness (ps : List Player) (hnd : ps.Nodup)
    (h2 : 2 ≤ ps.length) (_h30 : ps.length ≤ 30) :
    ∃ t : TeamAssignment, allocateTeams ps = some t ∧
      (t.whiteTeam ++ t.blackTeam ++ t.benchPlayers).Perm ps ∧
      (t.whiteTeam ++ t.blackTeam ++ t.benchPlayers).Nodup := by
  obtain ⟨t, halloc, -, -, -, -, hall⟩ := allocateTeams_full ps h2
  exact ⟨t, halloc, hall, hall.nodup_iff.mpr hnd⟩

/-- Witness for C1 on the concrete two-player roster. -/
theorem partition_completeness_witness :
    ∃ t : TeamAssignment, allocateTeams sampleTwo = some t ∧
      (t.whiteTeam ++ t.blackTeam ++ t.benchPlayers).Perm sampleTwo ∧
      (t.whiteTeam ++ t.blackTeam ++ t.benchPlayers).Nodup :=
  partition_completeness sampleTwo (by decide) (by decide) (by decide)

/-- C5: Bench selection — whenever the size plan has a positive bench
count, the allocator's bench is exactly the tail of the stable descending
sort past the active count (hence the benchCount lowest-skill players,
ties kept in stable order), the two teams partition the pre-greedy active
pool, and every bench player's overall skill is at most every active
player's. -/
theorem bench_selection (ps : List Player) (h2 : 2 ≤ ps.length)
    (hb : 0 < (sizePlan ps.length).benchCount) :
    ∃ t : TeamAssignment, allocateTeams ps = some t ∧
      t.benchPlayers
        = (sortByOverallDesc ps).drop (totalActiveCount ps.length) ∧
      t.benchPlayers.length = (sizePlan ps.length).benchCount ∧
      (t.whiteTeam ++ t.blackTeam).Perm
        ((sortByOverallDesc ps).take (totalActiveCount ps.length)) ∧
      ∀ pb ∈ t.benchPlayers, ∀ pa, pa ∈ t.whiteTeam ∨ pa ∈ t.blackTeam →
        pb.overallSkill ≤ pa.overallSkill := by
  obtain ⟨t, halloc, -, -, hbench, hperm, -⟩ := allocateTeams_full ps h2
  refine ⟨t, halloc, hbench, ?_, hperm, ?_⟩
  · rw [hbench]
    have hsum := sizePlan_sum ps.length h2
    simp only [List.length_drop, sortByOverallDesc_length]
    unfold totalActiveCount
    omega
  · intro pb hpb pa hpa
    have hpa' : pa ∈ (sortByOverallDesc ps).take (totalActiveCount ps.length) := by
      refine hperm.mem_iff.mp ?_
      rcases hpa with h | h
      · exact List.mem_append.mpr (Or.inl h)
      · exact List.mem_append.mpr (Or.inr h)
    have hpb' : pb ∈ (sortByOverallDesc ps).drop (totalActiveCount ps.length) := by
      rw [← hbench]
      exact hpb
    have hpw := sortByOverallDesc_pairwise ps
    rw [← List.take_append_drop (totalActiveCount ps.length)
      (sortByOverallDesc ps)] at hpw
    exact (List.pairwise_append.mp hpw).2.2 pa hpa' pb hpb'

/-- Witness for C5 on the thirteen-player roster (bench count 1). -/
theorem bench_selection_witness :
    ∃ t : TeamAssignment, allocateTeams sampleThirteen = some t ∧
      t.benchPlayers
        = (sortByOverallDesc sampleThirteen).drop
            (totalActiveCount sampleThirteen.length) ∧
      t.benchPlayers.length = (sizePlan sampleThirteen.length).benchCount ∧
      (t.whiteTeam ++ t.blackTeam).Perm
        ((sortByOverallDesc sampleThirteen).take
          (totalActiveCount sampleThirteen.length)) ∧
      ∀ pb ∈ t.benchPlayers, ∀ pa, pa ∈ t.whiteTeam ∨ pa ∈ t.blackTeam →
        pb.overallSkill ≤ pa.overallSkill :=
  bench_selection sampleThirteen (by decide) (by decide)

/-- C6: Size-difference bound — whenever the size plan allocates no bench,
the allocator's final team lengths differ by at most one. -/
theorem size_difference_bound (ps : List Player) (h2 : 2 ≤ ps.length)
    (hb : (sizePlan ps.length).benchCount = 0) :
    ∃ t : TeamAssignment, allocateTeams ps = some t ∧
      ((t.whiteTeam.length : Int) - (t.blackTeam.length : Int)).natAbs ≤ 1 := by
  obtain ⟨t, halloc, hw1, hw2, -, -, -⟩ := allocateTeams_full ps h2
  refine ⟨t, halloc, ?_⟩
  rw [hw1, hw2]
  exact sizePlan_diff ps.length h2 hb

/-- Witness for C6 on the concrete two-player roster. -/
theorem size_difference_bound_witness :
    ∃ t : TeamAssignment, allocateTeams sampleTwo = some t ∧
      ((t.whiteTeam.length : Int) - (t.blackTeam.length : Int)).natAbs ≤ 1 :=
  size_difference_bound sampleTwo (by decide) (by decide)

/-- C7: Termination with a valid assignment — every roster of at least 2
players yields `some` assignment (each fuel-bounded repair loop finishes
within `n + 1` guard checks, i.e. O(n) moves) whose team sizes equal the
size plan, whose bench size is the planned bench count, and which
partitions the input. -/
theorem allocation_terminates (ps : List Player) (h2 : 2 ≤ ps.length) :
    ∃ t : TeamAssignment, allocateTeams ps = some t ∧
      t.whiteTeam.length = (sizePlan ps.length).playersPerTeam1 ∧
      t.blackTeam.length = (sizePlan ps.length).playersPerTeam2 ∧
      t.benchPlayers.length = (sizePlan ps.length).benchCount ∧
      (t.whiteTeam ++ t.blackTeam ++ t.benchPlayers).Perm ps := by
  obtain ⟨t, halloc, hw1, hw2, hbench, -, hall⟩ := allocateTeams_full ps h2
  refine ⟨t, halloc, hw1, hw2, ?_, hall⟩
  rw [hbench]
  have hsum := sizePlan_sum ps.length h2
  simp only [List.length_drop, sortByOverallDesc_length]
  unfold totalActiveCount
  omega

/-- Witness for C7 on the concrete two-player roster. -/
theorem allocation_terminates_witness :
    ∃ t : TeamAssignment, allocateTeams sampleTwo = some t ∧
      t.whiteTeam.length = (sizePlan sampleTwo.length).playersPerTeam1 ∧
      t.blackTeam.length = (sizePlan sampleTwo.length).playersPerTeam2 ∧
      t.benchPlayers.length = (sizePlan sampleTwo.length).benchCount ∧
      (t.whiteTeam ++ t.blackTeam ++ t.benchPlayers).Perm sampleTwo :=
  allocation_terminates sampleTwo (by decide)

/-- C9: Repair pass is a no-op — after the greedy fold over the seeded
active pool the team sizes already equal the plan, so the whole four-loop
repair pass returns its input unchanged and the full allocator equals the
greedy phase alone (with the bench being the sorted tail). -/
theorem repair_phase_noop (ps : List Player) (p0 p1 : Player)
    (rest : List Player) (h2 : 2 ≤ ps.length)
    (htake : (sortByOverallDesc ps).take (totalActiveCount ps.length)
      = p0 :: p1 :: rest) :
    adjustTeams (ps.length + 1)
        (greedyAssign (sizePlan ps.length) p0 p1 rest).1
        (greedyAssign (sizePlan ps.length) p0 p1 rest).2
        (sizePlan ps.length).playersPerTeam1
        (sizePlan ps.length).playersPerTeam2
      = some (greedyAssign (sizePlan ps.length) p0 p1 rest) ∧
      allocateTeams ps = some
        { whiteTeam := (greedyAssign (sizePlan ps.length) p0 p1 rest).1
          blackTeam := (greedyAssign (sizePlan ps.length) p0 p1 rest).2
          benchPlayers :=
            (sortByOverallDesc ps).drop (totalActiveCount ps.length) } := by
  obtain ⟨-, -, hadj, halloc, -⟩ := allocateTeams_of_take ps p0 p1 rest h2 htake
  exact ⟨hadj, halloc⟩

/-- Witness for C9 on the concrete two-player roster, whose sorted active
pool is the two seeds with an empty remainder. -/
theorem repair_phase_noop_witness :
    adjustTeams (sampleTwo.length + 1)
        (greedyAssign (sizePlan sampleTwo.length)
          (samplePlayer 1 10) (samplePlayer 2 1) []).1
        (greedyAssign (sizePlan sampleTwo.length)
          (samplePlayer 1 10) (samplePlayer 2 1) []).2
        (sizePlan sampleTwo.length).playersPerTeam1
        (sizePlan sampleTwo.length).playersPerTeam2
      = some (greedyAssign (sizePlan sampleTwo.length)
          (samplePlayer 1 10) (samplePlayer 2 1) []) ∧
      allocateTeams sampleTwo = some
        { whiteTeam := (greedyAssign (sizePlan sampleTwo.length)
            (samplePlayer 1 10) (samplePlayer 2 1) []).1
          blackTeam := (greedyAssign (sizePlan sampleTwo.length)
            (samplePlayer 1 10) (samplePlayer 2 1) []).2
          benchPlayers :=
            (sortByOverallDesc sampleTwo).drop
              (totalActiveCount sampleTwo.length) } := by
  have hsort : sortByOverallDesc sampleTwo = sampleTwo :=
    List.mergeSort_of_sorted (by decide)
  have htake : (sortByOverallDesc sampleTwo).take
      (totalActiveCount sampleTwo.length)
      = samplePlayer 1 10 :: samplePlayer 2 1 :: [] := by
    rw [hsort]
    decide
  exact repair_phase_noop sampleTwo (samplePlayer 1 10) (samplePlayer 2 1) []
    (by decide) htake
